import Mathlib

/-!
Verification of the ATmega328P memory-monitoring firmware
(`src/memory_monitor.cpp`, `memory_monitor.h`).

The C code is shallowly embedded: the static state struct `s_mem_state`
becomes the Lean structure `MemState`, the fixed allocation table
`s_alloc_table` becomes a `List AllocationEntry` of length 32, and each
C function becomes a pure Lean function over that state.  All machine
integers are `uint16_t` (or `uint8_t`), modelled as `Nat` with explicit
reduction modulo 2^16 wherever the C arithmetic can wrap.
-/

namespace MemMonitor


/-- MAX_HEAP_ALLOCATIONS from memory_monitor.h (line 42). -/
def MAX_HEAP_ALLOCATIONS : Nat := 32

/-- STACK_SENTINEL (0xAA) from memory_monitor.h (line 45). -/
def STACK_SENTINEL : Nat := 0xAA

/-- COLLISION_SAFETY_MARGIN from memory_monitor.h (line 48). -/
def COLLISION_SAFETY_MARGIN : Nat := 128

/-- The modulus of `uint16_t` arithmetic. -/
def U16 : Nat := 65536

/-- Wrap-around `uint16_t` subtraction `a - b` (both operands below 2^16). -/
def sub16 (a b : Nat) : Nat := (a + U16 - b) % U16

/-- One slot of the heap-allocation tracking table (struct AllocationEntry
in memory_monitor.h).  The null pointer is modelled by the address 0. -/
structure AllocationEntry where
  ptr : Nat
  size : Nat
  active : Bool
  deriving DecidableEq, Repr

/-- The static statistics struct `s_mem_state` of memory_monitor.cpp
(lines 38-47).  All fields are `uint16_t` except `collision_warning`,
a `uint8_t` used as 0/1. -/
structure MemState where
  init_stack_pointer : Nat
  max_stack_usage : Nat
  heap_used : Nat
  heap_total_allocated : Nat
  heap_total_freed : Nat
  alloc_count : Nat
  free_count : Nat
  collision_warning : Nat
  deriving DecidableEq, Repr

/-- The monitor's whole static state: allocation table plus statistics. -/
structure Monitor where
  table : List AllocationEntry
  st : MemState
  deriving DecidableEq, Repr

/-- The all-zero statistics struct produced by `memset(&s_mem_state, 0, ...)`. -/
def zeroState : MemState :=
  { init_stack_pointer := 0, max_stack_usage := 0, heap_used := 0,
    heap_total_allocated := 0, heap_total_freed := 0,
    alloc_count := 0, free_count := 0, collision_warning := 0 }

/-- Ledger part of `mem_monitor_init` (memory_monitor.cpp lines 85-93):
the table is zeroed, the stats are zeroed, and the initial stack pointer
is recorded.  (The sentinel fill of the stack gap is modelled separately
by `armedSys` below.) -/
def mem_monitor_init (sp : Nat) : Monitor :=
  { table := List.replicate MAX_HEAP_ALLOCATIONS { ptr := 0, size := 0, active := false },
    st := { zeroState with init_stack_pointer := sp % U16 } }

/-- The slot-search loop of `mem_monitor_track_alloc` (lines 123-135):
first-fit scan for an inactive slot; on success the slot is overwritten
with the new record.  Returns `none` when every slot is active. -/
def insertFirstFree (p sz : Nat) : List AllocationEntry → Option (List AllocationEntry)
  | [] => none
  | e :: t =>
    if e.active = false then
      some ({ ptr := p, size := sz, active := true } :: t)
    else
      Option.map (fun t2 => e :: t2) (insertFirstFree p sz t)

/-- The search loop of `mem_monitor_track_free` (lines 151-162): first-fit
scan for an active slot whose pointer matches; on success the slot is
deactivated (ptr and size are left in place) and its size is returned. -/
def removeFirstMatch (p : Nat) : List AllocationEntry → Option (Nat × List AllocationEntry)
  | [] => none
  | e :: t =>
    if e.active = true ∧ e.ptr = p then
      some (e.size, { e with active := false } :: t)
    else
      Option.map (fun r => (r.1, e :: r.2)) (removeFirstMatch p t)

/-- `mem_monitor_track_alloc` (memory_monitor.cpp lines 117-139).
A null pointer is a no-op; otherwise a free slot is searched first-fit;
on success the record is stored and `heap_used`, `heap_total_allocated`
and `alloc_count` are updated (all `uint16_t`, hence mod 2^16); when the
table is full the function silently returns (lines 137-138 are a comment
only - no state is touched). -/
def mem_monitor_track_alloc (m : Monitor) (p size : Nat) : Monitor :=
  if p = 0 then m
  else
    match insertFirstFree p (size % U16) m.table with
    | some t =>
      { table := t,
        st := { m.st with
          heap_used := (m.st.heap_used + size % U16) % U16,
          heap_total_allocated := (m.st.heap_total_allocated + size % U16) % U16,
          alloc_count := (m.st.alloc_count + 1) % U16 } }
    | none => m

/-- `mem_monitor_track_free` (memory_monitor.cpp lines 145-165).
A null pointer is a no-op; otherwise the table is scanned for a matching
active record; on success `heap_used` is decremented and
`heap_total_freed` / `free_count` incremented (uint16 arithmetic) and the
slot deactivated; a pointer not found leaves everything unchanged (line
164 is a comment only). -/
def mem_monitor_track_free (m : Monitor) (p : Nat) : Monitor :=
  if p = 0 then m
  else
    match removeFirstMatch p m.table with
    | some (sz, t) =>
      { table := t,
        st := { m.st with
          heap_used := sub16 m.st.heap_used sz,
          heap_total_freed := (m.st.heap_total_freed + sz) % U16,
          free_count := (m.st.free_count + 1) % U16 } }
    | none => m

/-- One call into the ledger: a tracked allocation or a tracked free. -/
inductive MemOp where
  | alloc (p size : Nat)
  | free (p : Nat)
  deriving DecidableEq, Repr

/-- Apply one ledger call. -/
def applyOp (m : Monitor) : MemOp → Monitor
  | MemOp.alloc p size => mem_monitor_track_alloc m p size
  | MemOp.free p => mem_monitor_track_free m p

/-- Run a sequence of ledger calls. -/
def runOps (m : Monitor) (ops : List MemOp) : Monitor := ops.foldl applyOp m

/-- Whether the table still has an inactive slot. -/
def hasFreeSlot (t : List AllocationEntry) : Bool := t.any (fun e => !e.active)

/-- Whether a call would be rejected for lack of a free slot (saturation):
only a non-null allocation into a fully active table is rejected. -/
def rejectsOp (m : Monitor) : MemOp → Bool
  | MemOp.alloc p _ => decide (p ≠ 0) && !hasFreeSlot m.table
  | MemOp.free _ => false

/-- A run in which no allocation is ever rejected for lack of a slot. -/
def noSatRun : Monitor → List MemOp → Bool
  | _, [] => true
  | m, op :: ops => !rejectsOp m op && noSatRun (applyOp m op) ops

/-- Number of active slots in the table. -/
def activeCount : List AllocationEntry → Nat
  | [] => 0
  | e :: t => (if e.active then 1 else 0) + activeCount t

/-- Sum of the sizes of the active slots. -/
def activeBytes : List AllocationEntry → Nat
  | [] => 0
  | e :: t => (if e.active then e.size else 0) + activeBytes t

/-- The ledger invariant: the table has its fixed length, every stored
size fits in `uint16_t`, and the six running counters are the mod-2^16
images of true cumulative tallies `A` (bytes allocated), `F` (bytes
freed), `a` (allocate events), `f` (free events) that are in turn tied
to the table via `activeBytes` and `activeCount`. -/
def LedgerInv (m : Monitor) : Prop :=
  m.table.length = MAX_HEAP_ALLOCATIONS ∧
  (∀ e ∈ m.table, e.size < U16) ∧
  ∃ A F a f : Nat,
    F + activeBytes m.table = A ∧
    f + activeCount m.table = a ∧
    m.st.heap_total_allocated = A % U16 ∧
    m.st.heap_total_freed = F % U16 ∧
    m.st.heap_used = (A - F) % U16 ∧
    m.st.alloc_count = a % U16 ∧
    m.st.free_count = f % U16

/-- A completely saturated monitor: all 32 slots active. -/
def fullMonitor : Monitor :=
  { table := List.replicate 32 { ptr := 1, size := 4, active := true },
    st := zeroState }

/-- A monitor with one active allocation (address 5) and 31 free slots. -/
def oneAllocMonitor : Monitor :=
  { table := { ptr := 5, size := 10, active := true } ::
      List.replicate 31 { ptr := 0, size := 0, active := false },
    st := { zeroState with heap_used := 10, heap_total_allocated := 10, alloc_count := 1 } }

/-- `mem_monitor_check_collision` (memory_monitor.cpp lines 264-278),
with the stack-pointer read and the heap-end read made explicit
parameters.  `gap = current_sp - heap_end` is `uint16_t` wrap-around
subtraction; the verdict (the C return value, 1/0 as a `Bool`) is paired
with the updated statistics struct, whose `collision_warning` is written
to 1 or 0 on every call. -/
def mem_monitor_check_collision (st : MemState) (sp heap_end : Nat) : Bool × MemState :=
  let gap := sub16 sp heap_end
  if gap < COLLISION_SAFETY_MARGIN then (true, { st with collision_warning := 1 })
  else (false, { st with collision_warning := 0 })

/-- `mem_monitor_get_free_stack_space` (memory_monitor.cpp lines 203-212),
with the stack-pointer and heap-end reads made explicit parameters.  The
subtraction in the guarded branch is the `uint16_t` subtraction of the C
code. -/
def mem_monitor_get_free_stack_space (sp heap_end : Nat) : Nat :=
  if heap_end < sp then sub16 sp heap_end else 0

/-- `mem_monitor_get_fragmentation_ratio` (memory_monitor.cpp lines
234-258), with the heap bounds made explicit parameters.  The C locals
`total_heap = heap_end - heap_start` and `total_free = total_heap -
heap_used` (both `uint16_t` subtractions) are inlined.  In the
comparison `alloc_count > free_count + 5` the operands promote to
16-bit `unsigned int` on avr-gcc (`int` is 16 bits on AVR), so the sum
`free_count + 5` wraps mod 2^16.  The `float` result is modelled as a
rational: every operation the function performs on the `uint16` range
(a subtraction cast to float, division by 32, comparison with 1.0) is
exact in IEEE single precision, so the rational model is
value-faithful. -/
def mem_monitor_get_fragmentation_ratio (st : MemState) (heap_start heap_end : Nat) : ℚ :=
  if sub16 (sub16 heap_end heap_start) st.heap_used = 0 ∨ st.alloc_count = 0 then 0
  else if (st.free_count + 5) % U16 < st.alloc_count then
    if 1 < (sub16 st.alloc_count st.free_count : ℚ) / (MAX_HEAP_ALLOCATIONS : ℚ) then 1
    else (sub16 st.alloc_count st.free_count : ℚ) / (MAX_HEAP_ALLOCATIONS : ℚ)
  else 0

/-- Machine state for `mem_monitor_get_stack_pointer` (memory_monitor.cpp
lines 63-79): the AVR status register SREG (8-bit; bit 7 is the global
interrupt-enable I flag), the stack-pointer halves SPL and SPH, and the
two C locals - `savedSreg` models the local `sreg`, `sp` the local `sp`. -/
structure AvrState where
  sreg : Nat
  spl : Nat
  sph : Nat
  savedSreg : Nat
  sp : Nat
  deriving DecidableEq, Repr

/-- The global interrupt-enable I flag: bit 7 of SREG. -/
def iFlag (sreg : Nat) : Bool := Nat.testBit sreg 7

/-- The five primitive steps of `mem_monitor_get_stack_pointer`, in
source order: save SREG into the local, execute `cli` (clear bit 7 of
SREG), read SPL, merge in SPH shifted left by 8, write the saved copy
back to SREG. -/
inductive SpReadStep where
  | saveSreg
  | cli
  | readSpl
  | readSph
  | restoreSreg
  deriving DecidableEq, Repr

/-- Effect of one step on the machine state. -/
def execStep (s : AvrState) : SpReadStep → AvrState
  | SpReadStep.saveSreg => { s with savedSreg := s.sreg }
  | SpReadStep.cli => { s with sreg := s.sreg &&& 127 }
  | SpReadStep.readSpl => { s with sp := s.spl }
  | SpReadStep.readSph => { s with sp := s.sp ||| (s.sph <<< 8) }
  | SpReadStep.restoreSreg => { s with sreg := s.savedSreg }

/-- The instruction sequence of `mem_monitor_get_stack_pointer`. -/
def spReadProgram : List SpReadStep :=
  [SpReadStep.saveSreg, SpReadStep.cli, SpReadStep.readSpl,
   SpReadStep.readSph, SpReadStep.restoreSreg]

/-- `mem_monitor_get_stack_pointer`: run the five steps and return the
assembled 16-bit stack pointer together with the final machine state. -/
def mem_monitor_get_stack_pointer (s : AvrState) : Nat × AvrState :=
  ((spReadProgram.foldl execStep s).sp, spReadProgram.foldl execStep s)

/-- The sentinel-scan loop of `scan_stack_usage` (memory_monitor.cpp
lines 178-192): starting at address `p`, advance while the byte equals
the sentinel and the address is below RAMEND.  The loop is bounded by
the C guard `scan_ptr < RAMEND`; the bound `ramend - p` is passed as
structural fuel, which never runs out before the loop's own exit
condition. -/
def scanLoop (mem : Nat → Nat) (ramend : Nat) : Nat → Nat → Nat
  | 0, p => p
  | fuel + 1, p =>
    if mem p = STACK_SENTINEL ∧ p < ramend then scanLoop mem ramend fuel (p + 1) else p

/-- `scan_stack_usage`: the maximum penetration is the distance from
RAMEND down to the first non-sentinel byte at or above the heap end. -/
def scan_stack_usage (mem : Nat → Nat) (heap_end ramend : Nat) : Nat :=
  ramend - scanLoop mem ramend (ramend - heap_end) heap_end

/-- System state for the stack monitor: the SRAM contents (a byte value
for each address) plus the statistics struct. -/
structure SysState where
  mem : Nat → Nat
  st : MemState

/-- `mem_monitor_update` (memory_monitor.cpp lines 284-293): rescan the
sentinel, raise `max_stack_usage` to the scan result when the scan is
larger, then run the collision check (which rewrites
`collision_warning`).  The heap end, RAMEND and the live stack pointer
are explicit parameters. -/
def mem_monitor_update (heap_end ramend sp : Nat) (s : SysState) : SysState :=
  { s with st := (mem_monitor_check_collision
      (if s.st.max_stack_usage < scan_stack_usage s.mem heap_end ramend then
        { s.st with max_stack_usage := scan_stack_usage s.mem heap_end ramend }
      else s.st) sp heap_end).2 }

/-- Environment events for the high-water property: the stack grows to
penetration depth `d`, overwriting the bytes of [ramend - d, ramend)
with a non-sentinel value `v` (a later shrink restores nothing, so a
shrink is the identity on the scanned memory and needs no event of its
own); or the firmware calls `mem_monitor_update` while the live stack
pointer is `sp`. -/
inductive StackEv where
  | grow (d v : Nat)
  | update (sp : Nat)
  deriving DecidableEq, Repr

/-- Effect of one event. -/
def stepEv (heap_end ramend : Nat) (s : SysState) : StackEv → SysState
  | StackEv.grow d v =>
      { s with mem := fun a => if ramend - d ≤ a ∧ a < ramend then v else s.mem a }
  | StackEv.update sp => mem_monitor_update heap_end ramend sp s

/-- Run a sequence of events. -/
def runEvents (heap_end ramend : Nat) (s : SysState) (es : List StackEv) : SysState :=
  es.foldl (stepEv heap_end ramend) s

/-- Validity of a simulated event: stack writes stay at or above the
heap end and never write the sentinel value itself (writing the sentinel
is the accepted, undetectable heuristic limitation). -/
def validEv (heap_end ramend : Nat) : StackEv → Bool
  | StackEv.grow d v => decide (d ≤ ramend - heap_end) && decide (v ≠ STACK_SENTINEL)
  | StackEv.update _ => true

/-- The maximum stack penetration depth simulated across a sequence. -/
def maxGrowDepth : List StackEv → Nat
  | [] => 0
  | StackEv.grow d _ :: es => max d (maxGrowDepth es)
  | StackEv.update _ :: es => maxGrowDepth es

/-- The memory as `mem_monitor_init` leaves it with an empty stack:
every byte of [heap_end, ramend) holds the sentinel, and the statistics
are zeroed. -/
def armedSys (heap_end ramend : Nat) : SysState :=
  { mem := fun a => if heap_end ≤ a ∧ a < ramend then STACK_SENTINEL else 0,
    st := zeroState }

/-- The scanned-memory invariant with current maximum depth `D`: all
bytes strictly below `ramend - D` (and at or above the heap end) still
hold the sentinel, and when `D > 0` the byte at `ramend - D` does not. -/
def MemInv (heap_end ramend D : Nat) (mem : Nat → Nat) : Prop :=
  (∀ a, heap_end ≤ a → a < ramend - D → mem a = STACK_SENTINEL) ∧
  (0 < D → mem (ramend - D) ≠ STACK_SENTINEL)

lemma activeCount_le_length (t : List AllocationEntry) : activeCount t ≤ t.length := by
  induction t with
  | nil => simp [activeCount]
  | cons e t ih =>
    simp only [activeCount, List.length_cons]
    split <;> omega

lemma insertFirstFree_some (p sz : Nat) :
    ∀ (t t' : List AllocationEntry), insertFirstFree p sz t = some t' →
      t'.length = t.length ∧
      activeBytes t' = activeBytes t + sz ∧
      activeCount t' = activeCount t + 1 ∧
      (∀ e' ∈ t', e'.size = sz ∨ ∃ e ∈ t, e'.size = e.size) := by
  intro t
  induction t with
  | nil => intro t' h; simp [insertFirstFree] at h
  | cons e t ih =>
    intro t' h
    by_cases hact : e.active = false
    · simp only [insertFirstFree, hact, if_true, Option.some.injEq] at h
      subst h
      refine ⟨by simp, ?_, ?_, ?_⟩
      · simp [activeBytes, hact]
        omega
      · simp [activeCount, hact]
        omega
      · intro e' he'
        rcases List.mem_cons.mp he' with h1 | he'
        · left; rw [h1]
        · right; exact ⟨e', List.mem_cons_of_mem _ he', rfl⟩
    · simp only [insertFirstFree, hact, if_false] at h
      rcases Option.map_eq_some'.mp h with ⟨t2, ht2, rfl⟩
      obtain ⟨hlen, hbytes, hcount, hsizes⟩ := ih t2 ht2
      refine ⟨by simp [hlen], ?_, ?_, ?_⟩
      · simp only [activeBytes, hbytes]; omega
      · simp only [activeCount, hcount]; omega
      · intro e' he'
        rcases List.mem_cons.mp he' with h1 | he'
        · right; exact ⟨e, List.mem_cons_self _ _, by rw [h1]⟩
        · rcases hsizes e' he' with h1 | ⟨e0, he0, h2⟩
          · left; exact h1
          · right; exact ⟨e0, List.mem_cons_of_mem _ he0, h2⟩

lemma insertFirstFree_none (p sz : Nat) :
    ∀ t : List AllocationEntry, (∀ e ∈ t, e.active = true) →
      insertFirstFree p sz t = none := by
  intro t
  induction t with
  | nil => intro _; rfl
  | cons e t ih =>
    intro hall
    have he : e.active = true := hall e (List.mem_cons_self ..)
    simp only [insertFirstFree, he]
    simp [ih fun e' h => hall e' (List.mem_cons_of_mem _ h)]

lemma removeFirstMatch_some (p : Nat) :
    ∀ (t : List AllocationEntry) (sz : Nat) (t' : List AllocationEntry),
      removeFirstMatch p t = some (sz, t') →
      t'.length = t.length ∧
      activeBytes t = activeBytes t' + sz ∧
      activeCount t = activeCount t' + 1 ∧
      (∃ e ∈ t, sz = e.size) ∧
      (∀ e' ∈ t', ∃ e ∈ t, e'.size = e.size) := by
  intro t
  induction t with
  | nil => intro sz t' h; simp [removeFirstMatch] at h
  | cons e t ih =>
    intro sz t' h
    by_cases hmatch : e.active = true ∧ e.ptr = p
    · simp only [removeFirstMatch, hmatch, if_true, Option.some.injEq, Prod.mk.injEq] at h
      obtain ⟨rfl, rfl⟩ := h
      refine ⟨by simp, ?_, ?_, ⟨e, List.mem_cons_self _ _, rfl⟩, ?_⟩
      · simp [activeBytes, hmatch.1]
        omega
      · simp [activeCount, hmatch.1]
        omega
      · intro e' he'
        rcases List.mem_cons.mp he' with h1 | he'
        · exact ⟨e, List.mem_cons_self _ _, by rw [h1]⟩
        · exact ⟨e', List.mem_cons_of_mem _ he', rfl⟩
    · simp only [removeFirstMatch, hmatch, if_false] at h
      rcases Option.map_eq_some'.mp h with ⟨⟨sz0, t2⟩, ht2, heq⟩
      simp only [Prod.mk.injEq] at heq
      obtain ⟨rfl, rfl⟩ := heq
      obtain ⟨hlen, hbytes, hcount, hex, hsizes⟩ := ih sz0 t2 ht2
      refine ⟨by simp [hlen], ?_, ?_, ?_, ?_⟩
      · simp only [activeBytes, hbytes]; omega
      · simp only [activeCount, hcount]; omega
      · rcases hex with ⟨e0, he0, rfl⟩
        exact ⟨e0, List.mem_cons_of_mem _ he0, rfl⟩
      · intro e' he'
        rcases List.mem_cons.mp he' with h1 | he'
        · exact ⟨e, List.mem_cons_self _ _, by rw [h1]⟩
        · rcases hsizes e' he' with ⟨e0, he0, h2⟩
          exact ⟨e0, List.mem_cons_of_mem _ he0, h2⟩

lemma track_alloc_eq_some (m : Monitor) (p size : Nat) (t' : List AllocationEntry)
    (hp : p ≠ 0) (h : insertFirstFree p (size % U16) m.table = some t') :
    mem_monitor_track_alloc m p size =
      { table := t',
        st := { m.st with
          heap_used := (m.st.heap_used + size % U16) % U16,
          heap_total_allocated := (m.st.heap_total_allocated + size % U16) % U16,
          alloc_count := (m.st.alloc_count + 1) % U16 } } := by
  simp [mem_monitor_track_alloc, hp, h]

lemma track_alloc_eq_none (m : Monitor) (p size : Nat)
    (h : insertFirstFree p (size % U16) m.table = none) :
    mem_monitor_track_alloc m p size = m := by
  by_cases hp : p = 0
  · simp [mem_monitor_track_alloc, hp]
  · simp [mem_monitor_track_alloc, hp, h]

lemma track_free_eq_some (m : Monitor) (p sz : Nat) (t' : List AllocationEntry)
    (hp : p ≠ 0) (h : removeFirstMatch p m.table = some (sz, t')) :
    mem_monitor_track_free m p =
      { table := t',
        st := { m.st with
          heap_used := sub16 m.st.heap_used sz,
          heap_total_freed := (m.st.heap_total_freed + sz) % U16,
          free_count := (m.st.free_count + 1) % U16 } } := by
  simp [mem_monitor_track_free, hp, h]

lemma track_free_eq_none (m : Monitor) (p : Nat)
    (h : removeFirstMatch p m.table = none) :
    mem_monitor_track_free m p = m := by
  by_cases hp : p = 0
  · simp [mem_monitor_track_free, hp]
  · simp [mem_monitor_track_free, hp, h]

lemma ledgerInv_init (sp : Nat) : LedgerInv (mem_monitor_init sp) := by
  refine ⟨by simp [mem_monitor_init], ?_, 0, 0, 0, 0, ?_, ?_, by rfl, by rfl, by rfl, by rfl, by rfl⟩
  · intro e he
    simp only [mem_monitor_init, List.mem_replicate] at he
    rw [he.2]
    norm_num [U16]
  · simp only [mem_monitor_init]
    have : ∀ n, activeBytes (List.replicate n { ptr := 0, size := 0, active := false }) = 0 := by
      intro n
      induction n with
      | zero => rfl
      | succ n ih => simp [List.replicate_succ, activeBytes, ih]
    simp [this]
  · simp only [mem_monitor_init]
    have : ∀ n, activeCount (List.replicate n { ptr := 0, size := 0, active := false }) = 0 := by
      intro n
      induction n with
      | zero => rfl
      | succ n ih => simp [List.replicate_succ, activeCount, ih]
    simp [this]

lemma ledgerInv_step (m : Monitor) (op : MemOp) (h : LedgerInv m) :
    LedgerInv (applyOp m op) := by
  obtain ⟨hlen, hsizes, A, F, a, f, hAF, haf, hta, htf, hhu, hac, hfc⟩ := h
  cases op with
  | alloc p size =>
    show LedgerInv (mem_monitor_track_alloc m p size)
    by_cases hp : p = 0
    · simp only [mem_monitor_track_alloc, hp, if_true]
      exact ⟨hlen, hsizes, A, F, a, f, hAF, haf, hta, htf, hhu, hac, hfc⟩
    · cases hins : insertFirstFree p (size % U16) m.table with
      | none =>
        rw [track_alloc_eq_none m p size hins]
        exact ⟨hlen, hsizes, A, F, a, f, hAF, haf, hta, htf, hhu, hac, hfc⟩
      | some t' =>
        rw [track_alloc_eq_some m p size t' hp hins]
        obtain ⟨hlen', hbytes', hcount', hsizes'⟩ := insertFirstFree_some _ _ _ _ hins
        have hszlt : size % U16 < U16 := Nat.mod_lt _ (by norm_num [U16])
        refine ⟨by simpa [hlen'] using hlen, ?_, A + size % U16, F, a + 1, f,
          ?_, ?_, ?_, ?_, ?_, ?_, ?_⟩
        · intro e' he'
          rcases hsizes' e' he' with h1 | ⟨e0, he0, h2⟩
          · rw [h1]; exact hszlt
          · rw [h2]; exact hsizes e0 he0
        · show F + activeBytes t' = A + size % U16
          rw [hbytes']; omega
        · show f + activeCount t' = a + 1
          rw [hcount']; omega
        · show (m.st.heap_total_allocated + size % U16) % U16 = (A + size % U16) % U16
          simp only [hta, U16] at *; omega
        · exact htf
        · show (m.st.heap_used + size % U16) % U16 = (A + size % U16 - F) % U16
          simp only [hhu, U16] at *; omega
        · show (m.st.alloc_count + 1) % U16 = (a + 1) % U16
          simp only [hac, U16] at *; omega
        · exact hfc
  | free p =>
    show LedgerInv (mem_monitor_track_free m p)
    by_cases hp : p = 0
    · simp only [mem_monitor_track_free, hp, if_true]
      exact ⟨hlen, hsizes, A, F, a, f, hAF, haf, hta, htf, hhu, hac, hfc⟩
    · cases hrem : removeFirstMatch p m.table with
      | none =>
        rw [track_free_eq_none m p hrem]
        exact ⟨hlen, hsizes, A, F, a, f, hAF, haf, hta, htf, hhu, hac, hfc⟩
      | some r =>
        obtain ⟨sz, t'⟩ := r
        rw [track_free_eq_some m p sz t' hp hrem]
        obtain ⟨hlen', hbytes', hcount', ⟨e0, he0, rfl⟩, hsizes'⟩ :=
          removeFirstMatch_some _ _ _ _ hrem
        have hszlt : e0.size < U16 := hsizes e0 he0
        have hszle : e0.size ≤ activeBytes m.table := by omega
        refine ⟨by simpa [hlen'] using hlen, ?_, A, F + e0.size, a, f + 1,
          ?_, ?_, ?_, ?_, ?_, ?_, ?_⟩
        · intro e' he'
          rcases hsizes' e' he' with ⟨e1, he1, h2⟩
          rw [h2]; exact hsizes e1 he1
        · show F + e0.size + activeBytes t' = A
          omega
        · show f + 1 + activeCount t' = a
          omega
        · exact hta
        · show (m.st.heap_total_freed + e0.size) % U16 = (F + e0.size) % U16
          simp only [htf, U16] at *; omega
        · show sub16 m.st.heap_used e0.size = (A - (F + e0.size)) % U16
          simp only [hhu, sub16, U16] at *; omega
        · exact hac
        · show (m.st.free_count + 1) % U16 = (f + 1) % U16
          simp only [hfc, U16] at *; omega

lemma ledgerInv_run (ops : List MemOp) :
    ∀ m : Monitor, LedgerInv m → LedgerInv (runOps m ops) := by
  induction ops with
  | nil => intro m h; exact h
  | cons op ops ih =>
    intro m h
    exact ih (applyOp m op) (ledgerInv_step m op h)

/-- C1: Ledger conservation.  For every sequence of tracked alloc/free
calls from the initialized monitor in which no allocation is rejected for
lack of a free slot, the final `heap_used` equals the `uint16` difference
`heap_total_allocated - heap_total_freed`, and the number of active slots
equals the `uint16` difference `alloc_count - free_count`.  (Since the
sequence is arbitrary, this holds at every point of any such run.) -/
theorem C1_ledger_conservation (sp : Nat) (ops : List MemOp)
    (hns : noSatRun (mem_monitor_init sp) ops = true) :
    (runOps (mem_monitor_init sp) ops).st.heap_used =
      sub16 (runOps (mem_monitor_init sp) ops).st.heap_total_allocated
            (runOps (mem_monitor_init sp) ops).st.heap_total_freed ∧
    activeCount (runOps (mem_monitor_init sp) ops).table =
      sub16 (runOps (mem_monitor_init sp) ops).st.alloc_count
            (runOps (mem_monitor_init sp) ops).st.free_count := by
  obtain ⟨hlen, hsizes, A, F, a, f, hAF, haf, hta, htf, hhu, hac, hfc⟩ :=
    ledgerInv_run ops (mem_monitor_init sp) (ledgerInv_init sp)
  have hcnt := activeCount_le_length (runOps (mem_monitor_init sp) ops).table
  rw [hlen] at hcnt
  simp only [MAX_HEAP_ALLOCATIONS] at hcnt
  rw [hhu, hta, htf, hac, hfc]
  constructor
  · simp only [sub16, U16]
    omega
  · simp only [sub16, U16]
    omega

/-- Witness for C1: a concrete saturation-free run of three allocations
and one free. -/
theorem C1_ledger_conservation_witness :
    noSatRun (mem_monitor_init 2303)
      [MemOp.alloc 100 10, MemOp.alloc 200 20, MemOp.free 100, MemOp.alloc 300 5] = true ∧
    ((runOps (mem_monitor_init 2303)
        [MemOp.alloc 100 10, MemOp.alloc 200 20, MemOp.free 100, MemOp.alloc 300 5]).st.heap_used =
      sub16 (runOps (mem_monitor_init 2303)
        [MemOp.alloc 100 10, MemOp.alloc 200 20, MemOp.free 100, MemOp.alloc 300 5]).st.heap_total_allocated
            (runOps (mem_monitor_init 2303)
        [MemOp.alloc 100 10, MemOp.alloc 200 20, MemOp.free 100, MemOp.alloc 300 5]).st.heap_total_freed ∧
    activeCount (runOps (mem_monitor_init 2303)
        [MemOp.alloc 100 10, MemOp.alloc 200 20, MemOp.free 100, MemOp.alloc 300 5]).table =
      sub16 (runOps (mem_monitor_init 2303)
        [MemOp.alloc 100 10, MemOp.alloc 200 20, MemOp.free 100, MemOp.alloc 300 5]).st.alloc_count
            (runOps (mem_monitor_init 2303)
        [MemOp.alloc 100 10, MemOp.alloc 200 20, MemOp.free 100, MemOp.alloc 300 5]).st.free_count) :=
  ⟨by decide, C1_ledger_conservation 2303 _ (by decide)⟩

/-- A non-null allocation into a fully active table changes nothing:
the first-fit search fails and lines 137-138 of memory_monitor.cpp are a
comment only. -/
lemma track_alloc_full (m : Monitor) (p size : Nat)
    (hfull : ∀ e ∈ m.table, e.active = true) :
    mem_monitor_track_alloc m p size = m := by
  by_cases hp : p = 0
  · simp [mem_monitor_track_alloc, hp]
  · exact track_alloc_eq_none m p size (insertFirstFree_none _ _ _ hfull)

/-- C5 counterexample: calling `mem_monitor_track_alloc` with a non-null
address on a monitor whose 32 slots are all active returns a state that
is literally identical to the input.  `MemState` (the embedding of the
whole static state of memory_monitor.cpp) has no saturation field, so no
counter is incremented and no flag exposes the tracking loss: the
rejected allocation IS silently lost, contradicting the claim. -/
theorem C5_counterexample :
    mem_monitor_track_alloc fullMonitor 7 9 = fullMonitor := by decide

/-- C5 amended: when `mem_monitor_track_alloc` is called with a non-null
address and every table slot is active, the call is a complete no-op (the
monitor state is unchanged); the code keeps no saturation counter and
exposes nothing - the rejection is silent. -/
theorem C5_saturation_silent (m : Monitor) (p size : Nat) (hp : p ≠ 0)
    (hfull : ∀ e ∈ m.table, e.active = true) :
    mem_monitor_track_alloc m p size = m :=
  track_alloc_full m p size hfull

/-- Witness for the amended C5 at the concrete saturated monitor. -/
theorem C5_saturation_silent_witness :
    ((7 : Nat) ≠ 0 ∧ ∀ e ∈ fullMonitor.table, e.active = true) ∧
    mem_monitor_track_alloc fullMonitor 7 9 = fullMonitor :=
  ⟨by decide, C5_saturation_silent fullMonitor 7 9 (by decide) (by decide)⟩

/-- The free-search loop finds nothing when no active slot carries the
pointer. -/
lemma removeFirstMatch_none (p : Nat) :
    ∀ t : List AllocationEntry, (∀ e ∈ t, e.active = true → e.ptr ≠ p) →
      removeFirstMatch p t = none := by
  intro t
  induction t with
  | nil => intro _; rfl
  | cons e t ih =>
    intro hall
    have hne : ¬ (e.active = true ∧ e.ptr = p) := by
      rintro ⟨h1, h2⟩
      exact hall e (List.mem_cons_self _ _) h1 h2
    simp only [removeFirstMatch, hne, if_false]
    simp [ih fun e' h => hall e' (List.mem_cons_of_mem _ h)]

/-- C6 counterexample: freeing the untracked address 999 returns a state
literally identical to the input.  `MemState` has no anomaly field, so no
anomaly counter is incremented in the untracked case, contradicting the
claim (the no-op part of the claim does hold). -/
theorem C6_counterexample :
    mem_monitor_track_free oneAllocMonitor 999 = oneAllocMonitor := by decide

/-- C6 amended: `mem_monitor_track_free` with a null address is a no-op,
and with a non-null address that no active slot records it is also a
complete no-op - byte totals, counters and table are all unchanged; the
code keeps no anomaly counter, so nothing is incremented in either case. -/
theorem C6_free_anomaly_silent (m : Monitor) (p : Nat)
    (huntracked : ∀ e ∈ m.table, e.active = true → e.ptr ≠ p) :
    mem_monitor_track_free m p = m ∧ mem_monitor_track_free m 0 = m := by
  constructor
  · exact track_free_eq_none m p (removeFirstMatch_none p m.table huntracked)
  · simp [mem_monitor_track_free]

/-- Witness for the amended C6 at a concrete monitor and untracked address. -/
theorem C6_free_anomaly_silent_witness :
    (∀ e ∈ oneAllocMonitor.table, e.active = true → e.ptr ≠ 999) ∧
    (mem_monitor_track_free oneAllocMonitor 999 = oneAllocMonitor ∧
     mem_monitor_track_free oneAllocMonitor 0 = oneAllocMonitor) :=
  ⟨by decide, C6_free_anomaly_silent oneAllocMonitor 999 (by decide)⟩

/-- C7: Saturation safety (frame).  A non-null allocation into a monitor
whose 32 slots are all active leaves every slot and every counter of the
ledger unchanged. -/
theorem C7_saturation_frame (m : Monitor) (p size : Nat) (hp : p ≠ 0)
    (hlen : m.table.length = MAX_HEAP_ALLOCATIONS)
    (hfull : ∀ e ∈ m.table, e.active = true) :
    (mem_monitor_track_alloc m p size).table = m.table ∧
    (mem_monitor_track_alloc m p size).st.heap_used = m.st.heap_used ∧
    (mem_monitor_track_alloc m p size).st.heap_total_allocated = m.st.heap_total_allocated ∧
    (mem_monitor_track_alloc m p size).st.heap_total_freed = m.st.heap_total_freed ∧
    (mem_monitor_track_alloc m p size).st.alloc_count = m.st.alloc_count ∧
    (mem_monitor_track_alloc m p size).st.free_count = m.st.free_count := by
  rw [track_alloc_full m p size hfull]
  exact ⟨rfl, rfl, rfl, rfl, rfl, rfl⟩

/-- Witness for C7 at the concrete saturated monitor. -/
theorem C7_saturation_frame_witness :
    ((7 : Nat) ≠ 0 ∧ fullMonitor.table.length = MAX_HEAP_ALLOCATIONS ∧
      ∀ e ∈ fullMonitor.table, e.active = true) ∧
    ((mem_monitor_track_alloc fullMonitor 7 9).table = fullMonitor.table ∧
     (mem_monitor_track_alloc fullMonitor 7 9).st.heap_used = fullMonitor.st.heap_used ∧
     (mem_monitor_track_alloc fullMonitor 7 9).st.heap_total_allocated =
       fullMonitor.st.heap_total_allocated ∧
     (mem_monitor_track_alloc fullMonitor 7 9).st.heap_total_freed =
       fullMonitor.st.heap_total_freed ∧
     (mem_monitor_track_alloc fullMonitor 7 9).st.alloc_count = fullMonitor.st.alloc_count ∧
     (mem_monitor_track_alloc fullMonitor 7 9).st.free_count = fullMonitor.st.free_count) :=
  ⟨by decide, C7_saturation_frame fullMonitor 7 9 (by decide) (by decide) (by decide)⟩

/-- C3: Collision check semantics and boundary.  For all `uint16` stack-top
and heap-end addresses the verdict is true exactly when the `uint16` gap
`current_sp - heap_end` is below the 128-byte margin; a gap of exactly
127 bytes reports true and a gap of exactly 128 bytes reports false. -/
theorem C3_collision_boundary (st : MemState) (sp heap_end : Nat)
    (hsp : sp < U16) (hhe : heap_end < U16) :
    ((mem_monitor_check_collision st sp heap_end).1 = true ↔
      sub16 sp heap_end < COLLISION_SAFETY_MARGIN) ∧
    (sp = heap_end + 127 → (mem_monitor_check_collision st sp heap_end).1 = true) ∧
    (sp = heap_end + 128 → (mem_monitor_check_collision st sp heap_end).1 = false) := by
  refine ⟨?_, ?_, ?_⟩
  · simp only [mem_monitor_check_collision]
    split
    case isTrue h => simp [h]
    case isFalse h => simp [h]
  · intro hgap
    subst hgap
    have h127 : sub16 (heap_end + 127) heap_end = 127 := by
      simp only [sub16, U16]; omega
    simp [mem_monitor_check_collision, h127, COLLISION_SAFETY_MARGIN]
  · intro hgap
    subst hgap
    have h128 : sub16 (heap_end + 128) heap_end = 128 := by
      simp only [sub16, U16]; omega
    simp [mem_monitor_check_collision, h128, COLLISION_SAFETY_MARGIN]

/-- Witness for C3 at concrete addresses (gap 127 forces a warning). -/
theorem C3_collision_boundary_witness :
    ((1223 : Nat) < U16 ∧ (1096 : Nat) < U16) ∧
    (((mem_monitor_check_collision zeroState 1223 1096).1 = true ↔
        sub16 1223 1096 < COLLISION_SAFETY_MARGIN) ∧
      (1223 = 1096 + 127 → (mem_monitor_check_collision zeroState 1223 1096).1 = true) ∧
      (1223 = 1096 + 128 → (mem_monitor_check_collision zeroState 1223 1096).1 = false)) :=
  ⟨by decide, C3_collision_boundary zeroState 1223 1096 (by decide) (by decide)⟩

/-- C9: Non-latching collision verdict.  After every call the stored flag
equals the verdict the call returned (1 for true, 0 for false), and the
result is independent of the flag's previous value; hence a warning
raised by an earlier call is overwritten - cleared - by any later call
that finds an adequate gap. -/
theorem C9_non_latching (st : MemState) (sp heap_end w : Nat) :
    ((mem_monitor_check_collision st sp heap_end).2.collision_warning =
      if (mem_monitor_check_collision st sp heap_end).1 then 1 else 0) ∧
    (mem_monitor_check_collision { st with collision_warning := w } sp heap_end).2.collision_warning =
      (mem_monitor_check_collision st sp heap_end).2.collision_warning := by
  constructor
  · simp only [mem_monitor_check_collision]
    split <;> rfl
  · simp only [mem_monitor_check_collision]

/-- C10: Free-gap clamping.  For `uint16` values the function returns the
exact mathematical difference `sp - heap_end` when the stack pointer is
strictly above the heap end, and 0 otherwise; the guard keeps the
unsigned subtraction from wrapping, so the result never exceeds `sp`. -/
theorem C10_free_gap_clamping (sp heap_end : Nat)
    (hsp : sp < U16) (hhe : heap_end < U16) :
    (heap_end < sp → mem_monitor_get_free_stack_space sp heap_end = sp - heap_end) ∧
    (sp ≤ heap_end → mem_monitor_get_free_stack_space sp heap_end = 0) ∧
    mem_monitor_get_free_stack_space sp heap_end ≤ sp := by
  simp only [U16] at hsp hhe
  refine ⟨?_, ?_, ?_⟩
  · intro hlt
    simp only [mem_monitor_get_free_stack_space, hlt, if_true, sub16, U16]
    omega
  · intro hle
    have hnlt : ¬ heap_end < sp := by omega
    simp [mem_monitor_get_free_stack_space, hnlt]
  · by_cases hlt : heap_end < sp
    · simp only [mem_monitor_get_free_stack_space, hlt, if_true, sub16, U16]
      omega
    · simp [mem_monitor_get_free_stack_space, hlt]

/-- Witness for C10 at concrete addresses on both sides of the guard. -/
theorem C10_free_gap_clamping_witness :
    ((1800 : Nat) < U16 ∧ (650 : Nat) < U16) ∧
    ((650 < 1800 → mem_monitor_get_free_stack_space 1800 650 = 1800 - 650) ∧
     (1800 ≤ 650 → mem_monitor_get_free_stack_space 1800 650 = 0) ∧
     mem_monitor_get_free_stack_space 1800 650 ≤ 1800) :=
  ⟨by decide, C10_free_gap_clamping 1800 650 (by decide) (by decide)⟩

/-- C4 counterexample: with `alloc_count = 10`, `free_count = 3`, free
dynamic space available and a nonzero allocate count, the claim's
condition `(alloc_count - free_count) > (free_count + 5)` is false (7 is
not greater than 8), so the claim demands a ratio of 0.0; but the code
tests `alloc_count > free_count + 5` (10 > 8), so it returns 7/32 ≠ 0. -/
theorem C4_counterexample :
    ¬ ((10 : Nat) - 3 > 3 + 5) ∧
    mem_monitor_get_fragmentation_ratio
      { init_stack_pointer := 0, max_stack_usage := 0, heap_used := 0,
        heap_total_allocated := 500, heap_total_freed := 200,
        alloc_count := 10, free_count := 3, collision_warning := 0 } 0 100 = 7 / 32 ∧
    (7 : ℚ) / 32 ≠ 0 := by
  refine ⟨by decide, ?_, by norm_num⟩
  norm_num [mem_monitor_get_fragmentation_ratio, sub16, U16, MAX_HEAP_ALLOCATIONS]

/-- C4 amended: same policy with the threshold condition the code
actually uses - `alloc_count > free_count + 5`, not
`(alloc_count - free_count) > (free_count + 5)` - where the sum
`free_count + 5` is computed in 16-bit unsigned arithmetic, wrapping
mod 2^16 (avr-gcc promotes `uint16_t` to 16-bit `unsigned int`).  Under
no-wrap conditions on the remaining quantities: the ratio is 0 when
there is no free dynamic-region space or no allocate event was ever
observed; otherwise, if `alloc_count > (free_count + 5) mod 2^16` it is
`(alloc_count - free_count) / capacity` clamped to 1.0, and otherwise
0.  The claim's two numeric examples hold as stated, and at
`free_count = 65531`, `alloc_count = 65535` the wrapped sum is 0 and
the ratio is 4/32 = 1/8. -/
theorem C4_fragmentation_amended (st : MemState) (heap_start heap_end : Nat)
    (hhs : heap_start ≤ heap_end) (hhe : heap_end < U16)
    (hused : st.heap_used ≤ heap_end - heap_start)
    (hfa : st.free_count ≤ st.alloc_count) (ha : st.alloc_count < U16) :
    (mem_monitor_get_fragmentation_ratio st heap_start heap_end =
      if heap_end - heap_start - st.heap_used = 0 ∨ st.alloc_count = 0 then 0
      else if (st.free_count + 5) % U16 < st.alloc_count then
        min (((st.alloc_count - st.free_count : Nat) : ℚ) / (MAX_HEAP_ALLOCATIONS : ℚ)) 1
      else 0) ∧
    mem_monitor_get_fragmentation_ratio
      { zeroState with alloc_count := 10, free_count := 2 } 0 100 = 1 / 4 ∧
    mem_monitor_get_fragmentation_ratio
      { zeroState with alloc_count := 6, free_count := 3 } 0 100 = 0 ∧
    mem_monitor_get_fragmentation_ratio
      { zeroState with alloc_count := 65535, free_count := 65531 } 0 100 = 1 / 8 := by
  refine ⟨?_, ?_, ?_, ?_⟩
  · have h1 : sub16 heap_end heap_start = heap_end - heap_start := by
      simp only [sub16, U16] at *; omega
    have h2 : sub16 (heap_end - heap_start) st.heap_used =
        heap_end - heap_start - st.heap_used := by
      simp only [sub16, U16] at *; omega
    have h3 : sub16 st.alloc_count st.free_count = st.alloc_count - st.free_count := by
      simp only [sub16, U16] at *; omega
    rw [mem_monitor_get_fragmentation_ratio, h1, h2, h3]
    by_cases hc1 : heap_end - heap_start - st.heap_used = 0 ∨ st.alloc_count = 0
    · rw [if_pos hc1, if_pos hc1]
    · rw [if_neg hc1, if_neg hc1]
      by_cases hlt : (st.free_count + 5) % U16 < st.alloc_count
      · rw [if_pos hlt, if_pos hlt]
        rcases le_or_lt (((st.alloc_count - st.free_count : Nat) : ℚ) /
            (MAX_HEAP_ALLOCATIONS : ℚ)) 1 with hx | hx
        · rw [if_neg (not_lt.mpr hx), min_eq_left hx]
        · rw [if_pos hx, min_eq_right (le_of_lt hx)]
      · rw [if_neg hlt, if_neg hlt]
  · norm_num [mem_monitor_get_fragmentation_ratio, sub16, U16, MAX_HEAP_ALLOCATIONS, zeroState]
  · norm_num [mem_monitor_get_fragmentation_ratio, sub16, U16, MAX_HEAP_ALLOCATIONS, zeroState]
  · norm_num [mem_monitor_get_fragmentation_ratio, sub16, U16, MAX_HEAP_ALLOCATIONS, zeroState]

/-- Witness for the amended C4 at a concrete statistics struct. -/
theorem C4_fragmentation_amended_witness :
    ((0 : Nat) ≤ 100 ∧ (100 : Nat) < U16 ∧
      ({ zeroState with heap_used := 4, alloc_count := 9, free_count := 1 } : MemState).heap_used
        ≤ 100 - 0 ∧
      ({ zeroState with heap_used := 4, alloc_count := 9, free_count := 1 } : MemState).free_count
        ≤ ({ zeroState with heap_used := 4, alloc_count := 9, free_count := 1 } : MemState).alloc_count ∧
      ({ zeroState with heap_used := 4, alloc_count := 9, free_count := 1 } : MemState).alloc_count
        < U16) ∧
    (mem_monitor_get_fragmentation_ratio
        { zeroState with heap_used := 4, alloc_count := 9, free_count := 1 } 0 100 =
      if 100 - 0 -
          ({ zeroState with heap_used := 4, alloc_count := 9, free_count := 1 } : MemState).heap_used = 0 ∨
          ({ zeroState with heap_used := 4, alloc_count := 9, free_count := 1 } : MemState).alloc_count = 0 then 0
      else if (({ zeroState with heap_used := 4, alloc_count := 9, free_count := 1 } : MemState).free_count + 5) % U16 <
          ({ zeroState with heap_used := 4, alloc_count := 9, free_count := 1 } : MemState).alloc_count then
        min (((({ zeroState with heap_used := 4, alloc_count := 9, free_count := 1 } : MemState).alloc_count -
            ({ zeroState with heap_used := 4, alloc_count := 9, free_count := 1 } : MemState).free_count : Nat) : ℚ) /
          (MAX_HEAP_ALLOCATIONS : ℚ)) 1
      else 0) ∧
    mem_monitor_get_fragmentation_ratio
      { zeroState with alloc_count := 10, free_count := 2 } 0 100 = 1 / 4 ∧
    mem_monitor_get_fragmentation_ratio
      { zeroState with alloc_count := 6, free_count := 3 } 0 100 = 0 ∧
    mem_monitor_get_fragmentation_ratio
      { zeroState with alloc_count := 65535, free_count := 65531 } 0 100 = 1 / 8 :=
  ⟨⟨by decide, by decide, by decide, by decide, by decide⟩,
    C4_fragmentation_amended
      { zeroState with heap_used := 4, alloc_count := 9, free_count := 1 } 0 100
      (by decide) (by decide) (by decide) (by decide) (by decide)⟩

/-- C8: Interrupt-state restoration.  On return SREG equals its value
before the call (restored from the saved copy, never unconditionally
re-enabled); during both halves of the stack-pointer read (after `cli`,
i.e. after step 2, step 3 and step 4) the I flag is clear; consequently
a call made with interrupts already disabled leaves them disabled. -/
theorem C8_interrupt_restore (s : AvrState) :
    (mem_monitor_get_stack_pointer s).2.sreg = s.sreg ∧
    iFlag ((spReadProgram.take 2).foldl execStep s).sreg = false ∧
    iFlag ((spReadProgram.take 3).foldl execStep s).sreg = false ∧
    iFlag ((spReadProgram.take 4).foldl execStep s).sreg = false ∧
    (iFlag s.sreg = false → iFlag (mem_monitor_get_stack_pointer s).2.sreg = false) := by
  have h7 : Nat.testBit 127 7 = false := by decide
  have hbit : ∀ x : Nat, iFlag (x &&& 127) = false := by
    intro x
    simp [iFlag, Nat.testBit_land, h7]
  refine ⟨?_, ?_, ?_, ?_, ?_⟩
  · simp [mem_monitor_get_stack_pointer, spReadProgram, execStep]
  · simpa [spReadProgram, execStep] using hbit s.sreg
  · simpa [spReadProgram, execStep] using hbit s.sreg
  · simpa [spReadProgram, execStep] using hbit s.sreg
  · intro h
    simpa [mem_monitor_get_stack_pointer, spReadProgram, execStep] using h

/-- Witness for C8 at a concrete state with interrupts disabled (SREG = 5). -/
theorem C8_interrupt_restore_witness :
    iFlag (AvrState.mk 5 80 8 0 0).sreg = false ∧
    ((mem_monitor_get_stack_pointer (AvrState.mk 5 80 8 0 0)).2.sreg =
        (AvrState.mk 5 80 8 0 0).sreg ∧
      iFlag ((spReadProgram.take 2).foldl execStep (AvrState.mk 5 80 8 0 0)).sreg = false ∧
      iFlag ((spReadProgram.take 3).foldl execStep (AvrState.mk 5 80 8 0 0)).sreg = false ∧
      iFlag ((spReadProgram.take 4).foldl execStep (AvrState.mk 5 80 8 0 0)).sreg = false ∧
      iFlag (mem_monitor_get_stack_pointer (AvrState.mk 5 80 8 0 0)).2.sreg = false) :=
  ⟨by decide,
    (C8_interrupt_restore (AvrState.mk 5 80 8 0 0)).1,
    (C8_interrupt_restore (AvrState.mk 5 80 8 0 0)).2.1,
    (C8_interrupt_restore (AvrState.mk 5 80 8 0 0)).2.2.1,
    (C8_interrupt_restore (AvrState.mk 5 80 8 0 0)).2.2.2.1,
    (C8_interrupt_restore (AvrState.mk 5 80 8 0 0)).2.2.2.2 (by decide)⟩

lemma scanLoop_eq_stop (mem : Nat → Nat) (ramend stop : Nat) (hsr : stop ≤ ramend)
    (hstop : stop < ramend → mem stop ≠ STACK_SENTINEL) :
    ∀ fuel p, p ≤ stop → stop ≤ p + fuel →
      (∀ a, p ≤ a → a < stop → mem a = STACK_SENTINEL) →
      scanLoop mem ramend fuel p = stop := by
  intro fuel
  induction fuel with
  | zero =>
    intro p hp hpf _
    simp only [scanLoop]
    omega
  | succ fuel ih =>
    intro p hp hpf hsent
    by_cases hps : p = stop
    · simp only [scanLoop]
      rw [if_neg]
      · exact hps
      · rintro ⟨h1, h2⟩
        rw [hps] at h1 h2
        exact hstop h2 h1
    · have hplt : p < stop := by omega
      simp only [scanLoop]
      rw [if_pos ⟨hsent p le_rfl hplt, by omega⟩]
      exact ih (p + 1) (by omega) (by omega) (fun a ha1 ha2 => hsent a (by omega) ha2)

lemma scan_of_inv (heap_end ramend D : Nat) (mem : Nat → Nat)
    (hhr : heap_end ≤ ramend) (hD : D ≤ ramend - heap_end)
    (hinv : MemInv heap_end ramend D mem) :
    scan_stack_usage mem heap_end ramend = D := by
  obtain ⟨hsent, hstop⟩ := hinv
  have h1 : scanLoop mem ramend (ramend - heap_end) heap_end = ramend - D := by
    refine scanLoop_eq_stop mem ramend (ramend - D) (by omega) ?_ (ramend - heap_end) heap_end
      (by omega) (by omega) ?_
    · intro hlt
      exact hstop (by omega)
    · intro a ha1 ha2
      exact hsent a ha1 ha2
  simp only [scan_stack_usage, h1]
  omega

lemma check_collision_max (st : MemState) (sp heap_end : Nat) :
    (mem_monitor_check_collision st sp heap_end).2.max_stack_usage = st.max_stack_usage := by
  simp only [mem_monitor_check_collision]
  split <;> rfl

lemma update_max_eq (heap_end ramend sp : Nat) (s : SysState) :
    (mem_monitor_update heap_end ramend sp s).st.max_stack_usage =
      max s.st.max_stack_usage (scan_stack_usage s.mem heap_end ramend) := by
  simp only [mem_monitor_update, check_collision_max]
  split
  next h =>
    show scan_stack_usage s.mem heap_end ramend =
      max s.st.max_stack_usage (scan_stack_usage s.mem heap_end ramend)
    omega
  next h =>
    show s.st.max_stack_usage =
      max s.st.max_stack_usage (scan_stack_usage s.mem heap_end ramend)
    omega

lemma update_mem_eq (heap_end ramend sp : Nat) (s : SysState) :
    (mem_monitor_update heap_end ramend sp s).mem = s.mem := rfl

lemma runEvents_cons (heap_end ramend : Nat) (s : SysState) (e : StackEv) (es : List StackEv) :
    runEvents heap_end ramend s (e :: es) = runEvents heap_end ramend (stepEv heap_end ramend s e) es := rfl

lemma maxUsage_mono (heap_end ramend : Nat) :
    ∀ (es : List StackEv) (s : SysState),
      s.st.max_stack_usage ≤ (runEvents heap_end ramend s es).st.max_stack_usage := by
  intro es
  induction es with
  | nil => intro s; exact le_rfl
  | cons e es ih =>
    intro s
    have h1 : s.st.max_stack_usage ≤ (stepEv heap_end ramend s e).st.max_stack_usage := by
      cases e with
      | grow d v => exact le_rfl
      | update sp =>
        show s.st.max_stack_usage ≤ (mem_monitor_update heap_end ramend sp s).st.max_stack_usage
        rw [update_max_eq]
        exact le_max_left _ _
    rw [runEvents_cons]
    exact le_trans h1 (ih (stepEv heap_end ramend s e))

lemma runEvents_inv (heap_end ramend : Nat) (hhr : heap_end ≤ ramend) :
    ∀ (es : List StackEv) (s : SysState) (D : Nat),
      (∀ e ∈ es, validEv heap_end ramend e = true) →
      MemInv heap_end ramend D s.mem →
      s.st.max_stack_usage ≤ D → D ≤ ramend - heap_end →
      MemInv heap_end ramend (max D (maxGrowDepth es)) (runEvents heap_end ramend s es).mem ∧
      (runEvents heap_end ramend s es).st.max_stack_usage ≤ max D (maxGrowDepth es) ∧
      max D (maxGrowDepth es) ≤ ramend - heap_end := by
  intro es
  induction es with
  | nil =>
    intro s D _ hinv hmax hDb
    simp only [runEvents, List.foldl_nil, maxGrowDepth]
    have hm : max D 0 = D := by omega
    rw [hm]
    exact ⟨hinv, hmax, hDb⟩
  | cons e es ih =>
    intro s D hval hinv hmax hDb
    cases e with
    | grow d v =>
      have hvd : d ≤ ramend - heap_end ∧ v ≠ STACK_SENTINEL := by
        have hv := hval _ (List.mem_cons_self _ _)
        simp only [validEv, Bool.and_eq_true, decide_eq_true_eq] at hv
        exact hv
      have hstep1 : ∀ a, heap_end ≤ a → a < ramend - max D d →
          (stepEv heap_end ramend s (StackEv.grow d v)).mem a = STACK_SENTINEL := by
        intro a ha1 ha2
        show (if ramend - d ≤ a ∧ a < ramend then v else s.mem a) = STACK_SENTINEL
        rw [if_neg (by omega)]
        exact hinv.1 a ha1 (by omega)
      have hstep2 : 0 < max D d →
          (stepEv heap_end ramend s (StackEv.grow d v)).mem (ramend - max D d) ≠ STACK_SENTINEL := by
        intro hpos
        show (if ramend - d ≤ ramend - max D d ∧ ramend - max D d < ramend then v
          else s.mem (ramend - max D d)) ≠ STACK_SENTINEL
        rcases le_or_lt D d with hc | hc
        · have hmx : max D d = d := max_eq_right hc
          rw [hmx] at hpos ⊢
          rw [if_pos (by omega)]
          exact hvd.2
        · have hmx : max D d = D := max_eq_left (le_of_lt hc)
          rw [hmx] at hpos ⊢
          rw [if_neg (by omega)]
          exact hinv.2 hpos
      have hres := ih (stepEv heap_end ramend s (StackEv.grow d v)) (max D d)
        (fun e he => hval e (List.mem_cons_of_mem _ he))
        ⟨hstep1, hstep2⟩
        (le_trans hmax (le_max_left _ _))
        (by omega)
      rw [runEvents_cons]
      have hmd : maxGrowDepth (StackEv.grow d v :: es) = max d (maxGrowDepth es) := rfl
      rw [hmd, ← max_assoc]
      exact hres
    | update sp =>
      have hscan : scan_stack_usage s.mem heap_end ramend = D :=
        scan_of_inv heap_end ramend D s.mem hhr hDb hinv
      have hstmax : (stepEv heap_end ramend s (StackEv.update sp)).st.max_stack_usage ≤ D := by
        show (mem_monitor_update heap_end ramend sp s).st.max_stack_usage ≤ D
        rw [update_max_eq, hscan]
        omega
      have hmem : (stepEv heap_end ramend s (StackEv.update sp)).mem = s.mem := rfl
      have hres := ih (stepEv heap_end ramend s (StackEv.update sp)) D
        (fun e he => hval e (List.mem_cons_of_mem _ he))
        (by rw [hmem]; exact hinv)
        hstmax hDb
      rw [runEvents_cons]
      have hmd : maxGrowDepth (StackEv.update sp :: es) = maxGrowDepth es := rfl
      rw [hmd]
      exact hres

lemma armed_inv (heap_end ramend : Nat) :
    MemInv heap_end ramend 0 (armedSys heap_end ramend).mem := by
  constructor
  · intro a ha1 ha2
    show (if heap_end ≤ a ∧ a < ramend then STACK_SENTINEL else 0) = STACK_SENTINEL
    rw [if_pos ⟨ha1, by omega⟩]
  · intro h
    exact absurd h (by omega)

/-- C2: High-water monotonicity and exactness.  Over any valid simulated
sequence of stack growth/shrink and `mem_monitor_update` calls:
(1) `max_stack_usage` never decreases; (2) each update sets it to the
maximum of its previous value and the current scan result; (3) starting
from the armed (freshly initialized) memory, after the events and a
final update it equals the maximum penetration depth simulated across
the whole sequence, even if the stack has since shrunk back (shrinking
restores no sentinel bytes, so it leaves the scanned state unchanged). -/
theorem C2_high_water (heap_end ramend sp0 : Nat) (s : SysState) (es : List StackEv)
    (hhr : heap_end ≤ ramend)
    (hval : ∀ e ∈ es, validEv heap_end ramend e = true) :
    s.st.max_stack_usage ≤ (runEvents heap_end ramend s es).st.max_stack_usage ∧
    (mem_monitor_update heap_end ramend sp0 s).st.max_stack_usage =
      max s.st.max_stack_usage (scan_stack_usage s.mem heap_end ramend) ∧
    (runEvents heap_end ramend (armedSys heap_end ramend)
      (es ++ [StackEv.update sp0])).st.max_stack_usage = maxGrowDepth es := by
  refine ⟨maxUsage_mono heap_end ramend es s, update_max_eq heap_end ramend sp0 s, ?_⟩
  obtain ⟨hinv, hmax, hbound⟩ := runEvents_inv heap_end ramend hhr es
    (armedSys heap_end ramend) 0 hval (armed_inv heap_end ramend) le_rfl (by omega)
  have happ : runEvents heap_end ramend (armedSys heap_end ramend) (es ++ [StackEv.update sp0]) =
      mem_monitor_update heap_end ramend sp0
        (runEvents heap_end ramend (armedSys heap_end ramend) es) := by
    simp only [runEvents, List.foldl_append, List.foldl_cons, List.foldl_nil]
    rfl
  rw [happ, update_max_eq]
  rw [scan_of_inv heap_end ramend (max 0 (maxGrowDepth es)) _ hhr hbound hinv]
  omega

/-- Witness for C2: two growths to depths 20 and 5 with interleaved
updates in a 64-byte address space; the final high-water mark is 20. -/
theorem C2_high_water_witness :
    ((0 : Nat) ≤ 64 ∧
      ∀ e ∈ [StackEv.grow 20 0, StackEv.update 60, StackEv.grow 5 0, StackEv.update 62],
        validEv 0 64 e = true) ∧
    ((armedSys 0 64).st.max_stack_usage ≤
        (runEvents 0 64 (armedSys 0 64)
          [StackEv.grow 20 0, StackEv.update 60, StackEv.grow 5 0, StackEv.update 62]).st.max_stack_usage ∧
      (mem_monitor_update 0 64 50 (armedSys 0 64)).st.max_stack_usage =
        max (armedSys 0 64).st.max_stack_usage (scan_stack_usage (armedSys 0 64).mem 0 64) ∧
      (runEvents 0 64 (armedSys 0 64)
        ([StackEv.grow 20 0, StackEv.update 60, StackEv.grow 5 0, StackEv.update 62] ++
          [StackEv.update 50])).st.max_stack_usage =
        maxGrowDepth [StackEv.grow 20 0, StackEv.update 60, StackEv.grow 5 0, StackEv.update 62]) :=
  ⟨⟨by decide, by decide⟩,
    C2_high_water 0 64 50 (armedSys 0 64)
      [StackEv.grow 20 0, StackEv.update 60, StackEv.grow 5 0, StackEv.update 62]
      (by decide) (by decide)⟩


end MemMonitor

